import Mathlib

set_option maxHeartbeats 1000000

/-!
Verification of the jigsaw-puzzle generation engine and its interaction layer.

The sources are the generation module (`generatePuzzle`, `drawJigsawPath`,
`drawTab`) and the game component (`handlePointerDown` / `handlePointerMove` /
`handlePointerUp`).  JavaScript numbers are modelled as rationals (`ℚ`) except
where the code calls `Math.sqrt`, where reals are used.  The per-piece canvas
raster (`imgUrl`, drawing, clipping, bevel compositing) is pure pixel output
and is not modelled; every other field of a piece is.  The ambient random
source (`Math.random() > 0.5`) is modelled by arbitrary boolean functions
`rndR`, `rndB` giving, for each grid cell, the draw made for its right and
bottom edge; quantifying over all such functions covers every possible
sequence of random draws.  `canvas.getContext` possibly returning `null` is
modelled by an arbitrary boolean function `ctxOk` on grid cells.
-/

/-- Per-piece edge shape descriptor: `0` flat, `1` tab, `-1` slot
(`PieceShape` in `types.ts`). -/
structure PieceShape where
  top : Int
  right : Int
  bottom : Int
  left : Int
  deriving DecidableEq

/-- The mutable `shapes` 2D array, modelled as a total function with the
pre-fill value `⟨0,0,0,0⟩`; the loop writes every in-range cell before any
in-range read, so the default is never observed. -/
abbrev ShapeGrid := Nat → Nat → PieceShape

def initShapeGrid : ShapeGrid := fun _ _ => ⟨0, 0, 0, 0⟩

/-- `shapes[r][c] = s` on a function-backed grid. -/
def writeCell (g : ShapeGrid) (r c : Nat) (s : PieceShape) : ShapeGrid :=
  fun r' c' => if r' = r ∧ c' = c then s else g r' c'

/-- The cells `(r, 0), …, (r, cols-1)` visited by the inner `for` loop. -/
def rowCells (r cols : Nat) : List (Nat × Nat) :=
  (List.range cols).map (fun c => (r, c))

/-- Row-major cell order of the nested `for (r) for (c)` loops. -/
def cellList : Nat → Nat → List (Nat × Nat)
  | 0, _ => []
  | rows + 1, cols => cellList rows cols ++ rowCells rows cols

/-- One iteration of the shape-assignment loop body: start from the all-flat
descriptor, then derive `top` from the finished row above, `left` from the
cell to the left, and draw `right` / `bottom` at random for non-border
edges.  The four conditional assignments of the source touch four distinct
fields of the fresh descriptor, so they are rendered as one record. -/
def cellBody (rows cols : Nat) (g : ShapeGrid) (r c : Nat) (rr rb : Bool) : PieceShape :=
  { top := if 0 < r then -(g (r - 1) c).bottom else 0
    right := if c < cols - 1 then (if rr then 1 else -1) else 0
    bottom := if r < rows - 1 then (if rb then 1 else -1) else 0
    left := if 0 < c then -(g r (c - 1)).right else 0 }

def shapeStep (rows cols : Nat) (rndR rndB : Nat → Nat → Bool) (g : ShapeGrid)
    (rc : Nat × Nat) : ShapeGrid :=
  writeCell g rc.1 rc.2 (cellBody rows cols g rc.1 rc.2 (rndR rc.1 rc.2) (rndB rc.1 rc.2))

/-- The shape grid produced by step 1 of `generatePuzzle`. -/
def shapesGrid (rows cols : Nat) (rndR rndB : Nat → Nat → Bool) : ShapeGrid :=
  (cellList rows cols).foldl (shapeStep rows cols rndR rndB) initShapeGrid

/-- Closed form of the `right` edge written by the loop. -/
def edgeRight (cols : Nat) (rndR : Nat → Nat → Bool) (r c : Nat) : Int :=
  if c < cols - 1 then (if rndR r c then 1 else -1) else 0

/-- Closed form of the `bottom` edge written by the loop. -/
def edgeBottom (rows : Nat) (rndB : Nat → Nat → Bool) (r c : Nat) : Int :=
  if r < rows - 1 then (if rndB r c then 1 else -1) else 0

/-- Closed form of the full descriptor the loop leaves at cell `(r, c)`. -/
def shapeClosed (rows cols : Nat) (rndR rndB : Nat → Nat → Bool) (r c : Nat) : PieceShape :=
  { top := if 0 < r then -edgeBottom rows rndB (r - 1) c else 0
    right := edgeRight cols rndR r c
    bottom := edgeBottom rows rndB r c
    left := if 0 < c then -edgeRight cols rndR r (c - 1) else 0 }

lemma rowCells_succ (r k : Nat) : rowCells r (k + 1) = rowCells r k ++ [(r, k)] := by
  simp [rowCells, List.range_succ]

lemma rowFold (rows cols : Nat) (rndR rndB : Nat → Nat → Bool) (r : Nat) :
    ∀ k, k ≤ cols → ∀ g : ShapeGrid,
      (∀ r' c', r' < r → c' < cols → g r' c' = shapeClosed rows cols rndR rndB r' c') →
      (∀ r' c', r' ≠ r →
        ((rowCells r k).foldl (shapeStep rows cols rndR rndB) g) r' c' = g r' c') ∧
      (∀ c', k ≤ c' →
        ((rowCells r k).foldl (shapeStep rows cols rndR rndB) g) r c' = g r c') ∧
      (∀ c', c' < k →
        ((rowCells r k).foldl (shapeStep rows cols rndR rndB) g) r c'
          = shapeClosed rows cols rndR rndB r c') := by
  intro k
  induction k with
  | zero =>
    intro _ g _
    exact ⟨fun _ _ _ => rfl, fun _ _ => rfl, fun c' hc' => absurd hc' (Nat.not_lt_zero c')⟩
  | succ k ih =>
    intro hk g hprev
    obtain ⟨h1, h2, h3⟩ := ih (Nat.le_of_succ_le hk) g hprev
    rw [rowCells_succ, List.foldl_append]
    have hkc : k < cols := hk
    set g1 := (rowCells r k).foldl (shapeStep rows cols rndR rndB) g with hg1
    have hfold : [(r, k)].foldl (shapeStep rows cols rndR rndB) g1
        = writeCell g1 r k (cellBody rows cols g1 r k (rndR r k) (rndB r k)) := rfl
    have hbody : cellBody rows cols g1 r k (rndR r k) (rndB r k)
        = shapeClosed rows cols rndR rndB r k := by
      have hup : 0 < r → g1 (r - 1) k = shapeClosed rows cols rndR rndB (r - 1) k := by
        intro hr
        rw [h1 (r - 1) k (by omega)]
        exact hprev _ _ (by omega) hkc
      have hleft : 0 < k → g1 r (k - 1) = shapeClosed rows cols rndR rndB r (k - 1) :=
        fun hkpos => h3 _ (by omega)
      unfold cellBody shapeClosed
      by_cases hr : 0 < r
      · by_cases hcpos : 0 < k
        · simp only [if_pos hr, if_pos hcpos, hup hr, hleft hcpos]
          simp [shapeClosed, edgeRight, edgeBottom]
        · simp only [if_pos hr, if_neg hcpos, hup hr]
          simp [shapeClosed, edgeRight, edgeBottom]
      · by_cases hcpos : 0 < k
        · simp only [if_neg hr, if_pos hcpos, hleft hcpos]
          simp [shapeClosed, edgeRight, edgeBottom]
        · simp only [if_neg hr, if_neg hcpos]
          simp [shapeClosed, edgeRight, edgeBottom]
    rw [hfold, hbody]
    refine ⟨?_, ?_, ?_⟩
    · intro r' c' hne
      show writeCell g1 r k (shapeClosed rows cols rndR rndB r k) r' c' = g r' c'
      unfold writeCell
      rw [if_neg (fun hand => hne hand.1)]
      exact h1 r' c' hne
    · intro c' hc'
      show writeCell g1 r k (shapeClosed rows cols rndR rndB r k) r c' = g r c'
      unfold writeCell
      rw [if_neg (fun hand => by omega)]
      exact h2 c' (by omega)
    · intro c' hc'
      show writeCell g1 r k (shapeClosed rows cols rndR rndB r k) r c'
          = shapeClosed rows cols rndR rndB r c'
      by_cases hck : c' = k
      · subst hck
        unfold writeCell
        rw [if_pos ⟨rfl, rfl⟩]
      · unfold writeCell
        rw [if_neg (fun hand => hck hand.2)]
        exact h3 c' (by omega)

lemma shapesFold (rows cols : Nat) (rndR rndB : Nat → Nat → Bool) :
    ∀ n r c, r < n → c < cols →
      ((cellList n cols).foldl (shapeStep rows cols rndR rndB) initShapeGrid) r c
        = shapeClosed rows cols rndR rndB r c := by
  intro n
  induction n with
  | zero => intro r c hr _; exact absurd hr (Nat.not_lt_zero r)
  | succ n ih =>
    intro r c hr hc
    show ((cellList n cols ++ rowCells n cols).foldl
        (shapeStep rows cols rndR rndB) initShapeGrid) r c = _
    rw [List.foldl_append]
    have H := rowFold rows cols rndR rndB n cols le_rfl
      ((cellList n cols).foldl (shapeStep rows cols rndR rndB) initShapeGrid)
      (fun r' c' h1 h2 => ih r' c' h1 h2)
    rcases Nat.lt_succ_iff_lt_or_eq.mp hr with h | h
    · rw [H.1 r c (by omega)]
      exact ih r c h hc
    · subst h
      exact H.2.2 c hc

/-- The shape grid equals its closed form on every in-range cell. -/
lemma shapesGrid_eq (rows cols : Nat) (rndR rndB : Nat → Nat → Bool) (r c : Nat)
    (hr : r < rows) (hc : c < cols) :
    shapesGrid rows cols rndR rndB r c = shapeClosed rows cols rndR rndB r c :=
  shapesFold rows cols rndR rndB rows r c hr hc

/-- Claim C1: for every shape grid the Shape Assigner produces (any grid
dimensions and any sequence of random choices), all border edges are `0`;
every interior shared edge is an exact negation between the two pieces
sharing it (`shapes[r][c].right = -shapes[r][c+1].left` and
`shapes[r][c].bottom = -shapes[r+1][c].top`); and every interior edge value
is `1` or `-1`, never `0`. -/
theorem shape_grid_invariants (rows cols : Nat) (rndR rndB : Nat → Nat → Bool)
    (r c : Nat) (hr : r < rows) (hc : c < cols) :
    (r = 0 → (shapesGrid rows cols rndR rndB r c).top = 0) ∧
    (r = rows - 1 → (shapesGrid rows cols rndR rndB r c).bottom = 0) ∧
    (c = 0 → (shapesGrid rows cols rndR rndB r c).left = 0) ∧
    (c = cols - 1 → (shapesGrid rows cols rndR rndB r c).right = 0) ∧
    (c + 1 < cols →
      (shapesGrid rows cols rndR rndB r c).right
          = -(shapesGrid rows cols rndR rndB r (c + 1)).left ∧
      ((shapesGrid rows cols rndR rndB r c).right = 1 ∨
        (shapesGrid rows cols rndR rndB r c).right = -1)) ∧
    (r + 1 < rows →
      (shapesGrid rows cols rndR rndB r c).bottom
          = -(shapesGrid rows cols rndR rndB (r + 1) c).top ∧
      ((shapesGrid rows cols rndR rndB r c).bottom = 1 ∨
        (shapesGrid rows cols rndR rndB r c).bottom = -1)) ∧
    (0 < c →
      ((shapesGrid rows cols rndR rndB r c).left = 1 ∨
        (shapesGrid rows cols rndR rndB r c).left = -1)) ∧
    (0 < r →
      ((shapesGrid rows cols rndR rndB r c).top = 1 ∨
        (shapesGrid rows cols rndR rndB r c).top = -1)) := by
  refine ⟨?_, ?_, ?_, ?_, ?_, ?_, ?_, ?_⟩
  · intro h0
    rw [shapesGrid_eq rows cols rndR rndB r c hr hc]
    simp [shapeClosed, h0]
  · intro h0
    rw [shapesGrid_eq rows cols rndR rndB r c hr hc]
    simp only [shapeClosed, edgeBottom]
    rw [if_neg (by omega)]
  · intro h0
    rw [shapesGrid_eq rows cols rndR rndB r c hr hc]
    simp [shapeClosed, h0]
  · intro h0
    rw [shapesGrid_eq rows cols rndR rndB r c hr hc]
    simp only [shapeClosed, edgeRight]
    rw [if_neg (by omega)]
  · intro h0
    rw [shapesGrid_eq rows cols rndR rndB r c hr hc,
      shapesGrid_eq rows cols rndR rndB r (c + 1) hr h0]
    constructor
    · simp only [shapeClosed]
      rw [if_pos (by omega)]
      simp
    · simp only [shapeClosed, edgeRight]
      rw [if_pos (by omega)]
      by_cases hb : rndR r c <;> simp [hb]
  · intro h0
    rw [shapesGrid_eq rows cols rndR rndB r c hr hc,
      shapesGrid_eq rows cols rndR rndB (r + 1) c h0 hc]
    constructor
    · simp only [shapeClosed]
      rw [if_pos (by omega)]
      simp
    · simp only [shapeClosed, edgeBottom]
      rw [if_pos (by omega)]
      by_cases hb : rndB r c <;> simp [hb]
  · intro h0
    rw [shapesGrid_eq rows cols rndR rndB r c hr hc]
    simp only [shapeClosed, edgeRight]
    rw [if_pos h0, if_pos (by omega)]
    by_cases hb : rndR r (c - 1) <;> simp [hb]
  · intro h0
    rw [shapesGrid_eq rows cols rndR rndB r c hr hc]
    simp only [shapeClosed, edgeBottom]
    rw [if_pos h0, if_pos (by omega)]
    by_cases hb : rndB (r - 1) c <;> simp [hb]

/-- Witness for C1 at a concrete 2×2 grid with all random draws `true`,
checked at cell `(0, 0)`. -/
theorem shape_grid_invariants_witness :
    (0 < 2 ∧ 0 < 2) ∧
    ((0 = 0 → (shapesGrid 2 2 (fun _ _ => true) (fun _ _ => true) 0 0).top = 0) ∧
     (0 = 2 - 1 → (shapesGrid 2 2 (fun _ _ => true) (fun _ _ => true) 0 0).bottom = 0) ∧
     (0 = 0 → (shapesGrid 2 2 (fun _ _ => true) (fun _ _ => true) 0 0).left = 0) ∧
     (0 = 2 - 1 → (shapesGrid 2 2 (fun _ _ => true) (fun _ _ => true) 0 0).right = 0) ∧
     (0 + 1 < 2 →
       (shapesGrid 2 2 (fun _ _ => true) (fun _ _ => true) 0 0).right
           = -(shapesGrid 2 2 (fun _ _ => true) (fun _ _ => true) 0 (0 + 1)).left ∧
       ((shapesGrid 2 2 (fun _ _ => true) (fun _ _ => true) 0 0).right = 1 ∨
         (shapesGrid 2 2 (fun _ _ => true) (fun _ _ => true) 0 0).right = -1)) ∧
     (0 + 1 < 2 →
       (shapesGrid 2 2 (fun _ _ => true) (fun _ _ => true) 0 0).bottom
           = -(shapesGrid 2 2 (fun _ _ => true) (fun _ _ => true) (0 + 1) 0).top ∧
       ((shapesGrid 2 2 (fun _ _ => true) (fun _ _ => true) 0 0).bottom = 1 ∨
         (shapesGrid 2 2 (fun _ _ => true) (fun _ _ => true) 0 0).bottom = -1)) ∧
     (0 < 0 →
       ((shapesGrid 2 2 (fun _ _ => true) (fun _ _ => true) 0 0).left = 1 ∨
         (shapesGrid 2 2 (fun _ _ => true) (fun _ _ => true) 0 0).left = -1)) ∧
     (0 < 0 →
       ((shapesGrid 2 2 (fun _ _ => true) (fun _ _ => true) 0 0).top = 1 ∨
         (shapesGrid 2 2 (fun _ _ => true) (fun _ _ => true) 0 0).top = -1))) :=
  ⟨by decide,
    shape_grid_invariants 2 2 (fun _ _ => true) (fun _ _ => true) 0 0
      (by decide) (by decide)⟩

/-- A puzzle piece's metadata (`PuzzlePiece` in `types.ts`); the canvas data
URL `imgUrl` is not modelled. -/
structure PuzzlePiece where
  id : Nat
  row : Nat
  col : Nat
  correctPos : ℚ × ℚ
  currentPos : ℚ × ℚ
  shape : PieceShape
  width : ℚ
  height : ℚ
  isLocked : Bool
  zIndex : Int
  deriving DecidableEq

/-- The piece record pushed by `generatePuzzle` for grid cell `(r, c)`. -/
def mkPiece (cols : Nat) (pieceWidth pieceHeight tabSize : ℚ) (shape : PieceShape)
    (r c : Nat) : PuzzlePiece :=
  { id := r * cols + c
    row := r
    col := c
    correctPos := ((c : ℚ) * pieceWidth - tabSize, (r : ℚ) * pieceHeight - tabSize)
    currentPos := (0, 0)
    shape := shape
    width := pieceWidth + tabSize * 2
    height := pieceHeight + tabSize * 2
    isLocked := false
    zIndex := 1 }

/-- The mutable state of the piece-creation loop: the `pieces` array, the
`loadedCount` counter, and the value the surrounding promise has been
resolved with (if any). -/
structure GenState where
  pieces : List PuzzlePiece
  loadedCount : Nat
  resolvedValue : Option (List PuzzlePiece × ℚ × ℚ)
  deriving DecidableEq

/-- One iteration of the piece-creation loop for cell `rc`.  If
`canvas.getContext` fails (`ctxOk` is `false`) the iteration is a `continue`:
nothing is pushed and `loadedCount` is not incremented.  Otherwise the piece
is pushed, `loadedCount` incremented, and — when `loadedCount` reaches
`totalPieces` and the promise is still pending — the promise is resolved
with the current pieces array and puzzle size. -/
def pieceStep (cols totalPieces : Nat)
    (pieceWidth pieceHeight tabSize puzzleWidth puzzleHeight : ℚ)
    (shapes : ShapeGrid) (ctxOk : Nat → Nat → Bool) (s : GenState)
    (rc : Nat × Nat) : GenState :=
  if ctxOk rc.1 rc.2 then
    let pieces := s.pieces ++
      [mkPiece cols pieceWidth pieceHeight tabSize (shapes rc.1 rc.2) rc.1 rc.2]
    let loaded := s.loadedCount + 1
    { pieces := pieces
      loadedCount := loaded
      resolvedValue :=
        match s.resolvedValue with
        | some v => some v
        | none => if loaded = totalPieces then some (pieces, puzzleWidth, puzzleHeight)
                  else none }
  else s

/-- Step 2 of `generatePuzzle`: the nested piece-creation loops. -/
def genLoop (rowsN colsN : Nat)
    (pieceWidth pieceHeight tabSize puzzleWidth puzzleHeight : ℚ)
    (shapes : ShapeGrid) (ctxOk : Nat → Nat → Bool) : GenState :=
  (cellList rowsN colsN).foldl
    (pieceStep colsN (rowsN * colsN) pieceWidth pieceHeight tabSize
      puzzleWidth puzzleHeight shapes ctxOk)
    ⟨[], 0, none⟩

/-- Output of the Layout Planner part of `generatePuzzle`. -/
structure Layout where
  puzzleWidth : ℚ
  puzzleHeight : ℚ
  rows : Int
  cols : Int
  pieceWidth : ℚ
  pieceHeight : ℚ
  deriving DecidableEq

/-- JavaScript `Math.round`: half-up rounding, `⌊x + 1/2⌋`. -/
def jsRound (q : ℚ) : Int := ⌊q + 1 / 2⌋

/-- The aspect-fit and grid-sizing computation of `generatePuzzle`
(source lines 57-86). -/
def computeLayout (imgW imgH maxW maxH : ℚ) (gridSize : Int) : Layout :=
  let imageAspect := imgW / imgH
  let containerAspect := maxW / maxH
  let pw : ℚ × ℚ :=
    if imageAspect > containerAspect then (maxW, maxW / imageAspect)
    else (maxH * imageAspect, maxH)
  let rc : Int × Int :=
    if imageAspect ≥ 1 then (gridSize, jsRound ((gridSize : ℚ) * imageAspect))
    else (jsRound ((gridSize : ℚ) * (1 / imageAspect)), gridSize)
  { puzzleWidth := pw.1
    puzzleHeight := pw.2
    rows := rc.1
    cols := rc.2
    pieceWidth := pw.1 / (rc.2 : ℚ)
    pieceHeight := pw.2 / (rc.1 : ℚ) }

/-- Everything `generatePuzzle` computes after the image has loaded.
`tabFrac` stands for the constant `TAB_SIZE_RATIO` imported from
`constants.ts` (not among the given sources); every theorem below holds for
an arbitrary value of it. -/
structure GenRun where
  layout : Layout
  tabSize : ℚ
  shapes : ShapeGrid
  state : GenState

/-- The whole generation pipeline of `generatePuzzle` for a source image of
intrinsic size `imgW × imgH`: aspect-fit layout, shape grid, then the
piece-creation loop.  The `for` loops run over `rows`/`cols` as loop bounds,
hence `Int.toNat` (a negative bound runs zero iterations, as in JS). -/
def generatePuzzleCore (imgW imgH maxW maxH : ℚ) (gridSize : Int) (tabFrac : ℚ)
    (rndR rndB ctxOk : Nat → Nat → Bool) : GenRun :=
  let L := computeLayout imgW imgH maxW maxH gridSize
  let tabSize := min L.pieceWidth L.pieceHeight * tabFrac
  let shapes := shapesGrid L.rows.toNat L.cols.toNat rndR rndB
  { layout := L
    tabSize := tabSize
    shapes := shapes
    state := genLoop L.rows.toNat L.cols.toNat L.pieceWidth L.pieceHeight tabSize
      L.puzzleWidth L.puzzleHeight shapes ctxOk }

lemma mem_cellList (rows cols r c : Nat) :
    (r, c) ∈ cellList rows cols ↔ r < rows ∧ c < cols := by
  induction rows with
  | zero => simp [cellList]
  | succ n ih =>
    simp only [cellList, List.mem_append, ih, rowCells, List.mem_map, List.mem_range]
    constructor
    · rintro (⟨h1, h2⟩ | ⟨c', hc', heq⟩)
      · exact ⟨by omega, h2⟩
      · injection heq with e1 e2
        subst e1; subst e2
        exact ⟨by omega, hc'⟩
    · rintro ⟨hr, hc⟩
      rcases Nat.lt_succ_iff_lt_or_eq.mp hr with h | h
      · exact Or.inl ⟨h, hc⟩
      · subst h
        exact Or.inr ⟨c, hc, rfl⟩

lemma length_cellList (rows cols : Nat) : (cellList rows cols).length = rows * cols := by
  induction rows with
  | zero => simp [cellList]
  | succ n ih =>
    simp only [cellList, List.length_append, ih, rowCells, List.length_map,
      List.length_range]
    rw [Nat.succ_mul]

/-- Loop invariant of the piece-creation loop: `loadedCount` tracks the
number of pieces pushed; a resolved value holds exactly `totalPieces` pieces
and the puzzle size; the promise is resolved exactly when `loadedCount` has
reached a positive `totalPieces`; and every pushed piece satisfies `P`. -/
def GenInv (totalPieces : Nat) (puzzleWidth puzzleHeight : ℚ)
    (P : PuzzlePiece → Prop) (s : GenState) : Prop :=
  s.loadedCount = s.pieces.length ∧
  (∀ v, s.resolvedValue = some v →
    v.1.length = totalPieces ∧ v.2.1 = puzzleWidth ∧ v.2.2 = puzzleHeight) ∧
  (s.resolvedValue.isSome = true ↔ 1 ≤ totalPieces ∧ totalPieces ≤ s.loadedCount) ∧
  (∀ p ∈ s.pieces, P p)

lemma genFold_inv (colsN totalPieces : Nat)
    (pieceWidth pieceHeight tabSize puzzleWidth puzzleHeight : ℚ)
    (shapes : ShapeGrid) (ctxOk : Nat → Nat → Bool) (P : PuzzlePiece → Prop) :
    ∀ (L : List (Nat × Nat)) (s : GenState),
      (∀ rc ∈ L, ctxOk rc.1 rc.2 = true →
        P (mkPiece colsN pieceWidth pieceHeight tabSize (shapes rc.1 rc.2) rc.1 rc.2)) →
      GenInv totalPieces puzzleWidth puzzleHeight P s →
      GenInv totalPieces puzzleWidth puzzleHeight P
        (L.foldl (pieceStep colsN totalPieces pieceWidth pieceHeight tabSize
          puzzleWidth puzzleHeight shapes ctxOk) s) := by
  intro L
  induction L with
  | nil => intro s _ h; exact h
  | cons a L ih =>
    intro s hmem hinv
    refine ih _ (fun rc h hc => hmem rc (List.mem_cons_of_mem a h) hc) ?_
    obtain ⟨j1, j2, j3, j4⟩ := hinv
    unfold pieceStep
    by_cases hctx : ctxOk a.1 a.2 = true
    · rw [if_pos hctx]
      rcases hres : s.resolvedValue with _ | v
      · by_cases heq : s.loadedCount + 1 = totalPieces
        · refine ⟨by simp [j1], ?_, ?_, ?_⟩
          · intro v' hv'
            simp only [hres, if_pos heq] at hv'
            injection hv' with hv'
            subst hv'
            exact ⟨by simp [← j1, heq], rfl, rfl⟩
          · simp only [hres, if_pos heq]
            exact ⟨fun _ => ⟨by omega, by omega⟩, fun _ => rfl⟩
          · intro p hp
            rcases List.mem_append.mp hp with h | h
            · exact j4 p h
            · rcases List.mem_singleton.mp h with rfl
              exact hmem a (List.mem_cons_self a L) hctx
        · refine ⟨by simp [j1], ?_, ?_, ?_⟩
          · intro v' hv'
            simp only [hres, if_neg heq] at hv'
            exact absurd hv' (by simp)
          · simp only [hres, if_neg heq]
            rw [hres] at j3
            simp only [Option.isSome_none] at j3 ⊢
            constructor
            · intro h; exact absurd h (by simp)
            · rintro ⟨ht1, ht2⟩
              have : ¬(1 ≤ totalPieces ∧ totalPieces ≤ s.loadedCount) := by
                intro hand
                have := j3.mpr hand
                simp at this
              exfalso
              exact this ⟨ht1, by omega⟩
          · intro p hp
            rcases List.mem_append.mp hp with h | h
            · exact j4 p h
            · rcases List.mem_singleton.mp h with rfl
              exact hmem a (List.mem_cons_self a L) hctx
      · rw [hres] at j3
        simp only [Option.isSome_some] at j3
        obtain ⟨ht1, ht2⟩ := j3.mp trivial
        refine ⟨by simp [j1], ?_, ?_, ?_⟩
        · intro v' hv'
          simp only [hres] at hv'
          injection hv' with he
          subst he
          exact j2 v hres
        · simp only [hres, Option.isSome_some]
          exact ⟨fun _ => ⟨ht1, by omega⟩, fun _ => trivial⟩
        · intro p hp
          rcases List.mem_append.mp hp with h | h
          · exact j4 p h
          · rcases List.mem_singleton.mp h with rfl
            exact hmem a (List.mem_cons_self a L) hctx
    · rw [if_neg hctx]
      exact ⟨j1, j2, j3, j4⟩

lemma genFold_count (colsN totalPieces : Nat)
    (pieceWidth pieceHeight tabSize puzzleWidth puzzleHeight : ℚ)
    (shapes : ShapeGrid) (ctxOk : Nat → Nat → Bool) :
    ∀ (L : List (Nat × Nat)) (s : GenState),
      ((L.foldl (pieceStep colsN totalPieces pieceWidth pieceHeight tabSize
        puzzleWidth puzzleHeight shapes ctxOk) s).loadedCount)
        = s.loadedCount + L.countP (fun rc => ctxOk rc.1 rc.2) := by
  intro L
  induction L with
  | nil => intro s; simp
  | cons a L ih =>
    intro s
    rw [List.foldl_cons, ih, List.countP_cons]
    unfold pieceStep
    by_cases hctx : ctxOk a.1 a.2 = true
    · rw [if_pos hctx]
      simp [hctx]
      omega
    · rw [if_neg hctx]
      simp only [hctx]
      simp at hctx
      simp [hctx]

lemma genInit_inv (totalPieces : Nat) (puzzleWidth puzzleHeight : ℚ)
    (P : PuzzlePiece → Prop) :
    GenInv totalPieces puzzleWidth puzzleHeight P ⟨[], 0, none⟩ := by
  refine ⟨rfl, by simp, ?_, by simp⟩
  constructor
  · intro h; simp at h
  · rintro ⟨h1, h2⟩
    have h2' : totalPieces ≤ 0 := h2
    exact absurd h1 (by omega)

/-- Claim C3 counterexample: in a 1×2 run where cell `(0,0)` fails to
acquire a 2D context, every grid cell is attempted and the failed piece is
skipped (exactly one piece is emitted), yet the generation promise is never
resolved: the `continue` skips `loadedCount++`, so `loadedCount` can no
longer reach `totalPieces`. -/
theorem skip_leaves_promise_unresolved :
    (genLoop 1 2 50 50 10 100 50
        (shapesGrid 1 2 (fun _ _ => true) (fun _ _ => true))
        (fun _ c => decide (c = 1))).resolvedValue = none ∧
    (genLoop 1 2 50 50 10 100 50
        (shapesGrid 1 2 (fun _ _ => true) (fun _ _ => true))
        (fun _ c => decide (c = 1))).pieces.length = 1 := by decide

/-- Claim C3 (amended): if acquiring a 2D drawing context fails for some
piece, that piece is skipped (omitted from the emitted pieces, which all
come from cells whose context succeeded); but the generation promise
resolves exactly when the context succeeded for every grid cell — when any
piece is skipped, the promise never resolves, even after every cell has
been attempted. -/
theorem resolution_iff_no_skip (rowsN colsN : Nat)
    (pieceWidth pieceHeight tabSize puzzleWidth puzzleHeight : ℚ)
    (shapes : ShapeGrid) (ctxOk : Nat → Nat → Bool)
    (hr : 1 ≤ rowsN) (hc : 1 ≤ colsN) :
    ((genLoop rowsN colsN pieceWidth pieceHeight tabSize puzzleWidth puzzleHeight
        shapes ctxOk).resolvedValue.isSome = true
      ↔ ∀ r c, r < rowsN → c < colsN → ctxOk r c = true) ∧
    (∀ p ∈ (genLoop rowsN colsN pieceWidth pieceHeight tabSize puzzleWidth
        puzzleHeight shapes ctxOk).pieces,
      p.row < rowsN ∧ p.col < colsN ∧ ctxOk p.row p.col = true) := by
  have hinv := genFold_inv colsN (rowsN * colsN) pieceWidth pieceHeight tabSize
    puzzleWidth puzzleHeight shapes ctxOk
    (fun p => p.row < rowsN ∧ p.col < colsN ∧ ctxOk p.row p.col = true)
    (cellList rowsN colsN) ⟨[], 0, none⟩
    (fun rc hmem hok =>
      ⟨((mem_cellList rowsN colsN rc.1 rc.2).mp hmem).1,
        ((mem_cellList rowsN colsN rc.1 rc.2).mp hmem).2, hok⟩)
    (genInit_inv _ _ _ _)
  obtain ⟨j1, j2, j3, j4⟩ := hinv
  have hcount := genFold_count colsN (rowsN * colsN) pieceWidth pieceHeight tabSize
    puzzleWidth puzzleHeight shapes ctxOk (cellList rowsN colsN) ⟨[], 0, none⟩
  have hcount' : ((cellList rowsN colsN).foldl
      (pieceStep colsN (rowsN * colsN) pieceWidth pieceHeight tabSize
        puzzleWidth puzzleHeight shapes ctxOk) ⟨[], 0, none⟩).loadedCount
      = (cellList rowsN colsN).countP (fun rc => ctxOk rc.1 rc.2) := by
    rw [hcount]; simp
  unfold genLoop
  constructor
  · rw [j3]
    constructor
    · rintro ⟨-, ht⟩
      intro r c hrlt hclt
      have hle : (cellList rowsN colsN).countP (fun rc => ctxOk rc.1 rc.2)
          ≤ (cellList rowsN colsN).length := List.countP_le_length _
      rw [hcount'] at ht
      rw [length_cellList] at hle
      have heq : (cellList rowsN colsN).countP (fun rc => ctxOk rc.1 rc.2)
          = (cellList rowsN colsN).length := by
        rw [length_cellList]
        exact Nat.le_antisymm hle ht
      have hall := List.countP_eq_length.mp heq
      exact hall (r, c) ((mem_cellList rowsN colsN r c).mpr ⟨hrlt, hclt⟩)
    · intro hall
      have heq : (cellList rowsN colsN).countP (fun rc => ctxOk rc.1 rc.2)
          = (cellList rowsN colsN).length := by
        apply List.countP_eq_length.mpr
        intro rc hmem
        exact hall rc.1 rc.2 ((mem_cellList rowsN colsN rc.1 rc.2).mp hmem).1
          ((mem_cellList rowsN colsN rc.1 rc.2).mp hmem).2
      constructor
      · calc 1 = 1 * 1 := by omega
          _ ≤ rowsN * colsN := Nat.mul_le_mul hr hc
      · rw [hcount', heq, length_cellList]
  · exact j4

/-- Witness for the amended C3 at a concrete 1×1 run in which no context
fails: the promise is resolved, and the single piece comes from cell
`(0,0)`. -/
theorem resolution_iff_no_skip_witness :
    1 ≤ 1 ∧ 1 ≤ 1 ∧
    (((genLoop 1 1 100 100 25 100 100
        (shapesGrid 1 1 (fun _ _ => true) (fun _ _ => true))
        (fun _ _ => true)).resolvedValue.isSome = true
      ↔ ∀ r c, r < 1 → c < 1 → (fun _ _ => true : Nat → Nat → Bool) r c = true) ∧
     (∀ p ∈ (genLoop 1 1 100 100 25 100 100
        (shapesGrid 1 1 (fun _ _ => true) (fun _ _ => true))
        (fun _ _ => true)).pieces,
      p.row < 1 ∧ p.col < 1 ∧ (fun _ _ => true : Nat → Nat → Bool) p.row p.col = true)) :=
  ⟨le_rfl, le_rfl,
    resolution_iff_no_skip 1 1 100 100 25 100 100
      (shapesGrid 1 1 (fun _ _ => true) (fun _ _ => true))
      (fun _ _ => true) le_rfl le_rfl⟩

/-- Claim C4: whenever the generation promise resolves, the resolved piece
collection holds exactly `rows * cols` pieces, for the rows and cols the
Layout Planner computed for that run. -/
theorem resolved_count_eq_grid (imgW imgH maxW maxH : ℚ) (gridSize : Int)
    (tabFrac : ℚ) (rndR rndB ctxOk : Nat → Nat → Bool)
    (v : List PuzzlePiece × ℚ × ℚ)
    (h : (generatePuzzleCore imgW imgH maxW maxH gridSize tabFrac rndR rndB
        ctxOk).state.resolvedValue = some v) :
    (v.1.length : Int)
      = (computeLayout imgW imgH maxW maxH gridSize).rows
        * (computeLayout imgW imgH maxW maxH gridSize).cols := by
  have hinv := genFold_inv
    (computeLayout imgW imgH maxW maxH gridSize).cols.toNat
    ((computeLayout imgW imgH maxW maxH gridSize).rows.toNat
      * (computeLayout imgW imgH maxW maxH gridSize).cols.toNat)
    (computeLayout imgW imgH maxW maxH gridSize).pieceWidth
    (computeLayout imgW imgH maxW maxH gridSize).pieceHeight
    (min (computeLayout imgW imgH maxW maxH gridSize).pieceWidth
      (computeLayout imgW imgH maxW maxH gridSize).pieceHeight * tabFrac)
    (computeLayout imgW imgH maxW maxH gridSize).puzzleWidth
    (computeLayout imgW imgH maxW maxH gridSize).puzzleHeight
    (shapesGrid (computeLayout imgW imgH maxW maxH gridSize).rows.toNat
      (computeLayout imgW imgH maxW maxH gridSize).cols.toNat rndR rndB)
    ctxOk (fun _ => True)
    (cellList (computeLayout imgW imgH maxW maxH gridSize).rows.toNat
      (computeLayout imgW imgH maxW maxH gridSize).cols.toNat)
    ⟨[], 0, none⟩ (fun _ _ _ => trivial) (genInit_inv _ _ _ _)
  obtain ⟨j1, j2, j3, j4⟩ := hinv
  have hlen := (j2 v h).1
  have hx : (generatePuzzleCore imgW imgH maxW maxH gridSize tabFrac rndR rndB
      ctxOk).state.resolvedValue.isSome = true := by
    rw [h]; rfl
  have hsome : (1 ≤ (computeLayout imgW imgH maxW maxH gridSize).rows.toNat
        * (computeLayout imgW imgH maxW maxH gridSize).cols.toNat) :=
    (j3.mp hx).1
  have hrpos : 0 < (computeLayout imgW imgH maxW maxH gridSize).rows.toNat := by
    rcases Nat.eq_zero_or_pos (computeLayout imgW imgH maxW maxH gridSize).rows.toNat
      with h0 | h1
    · rw [h0, Nat.zero_mul] at hsome; omega
    · exact h1
  have hcpos : 0 < (computeLayout imgW imgH maxW maxH gridSize).cols.toNat := by
    rcases Nat.eq_zero_or_pos (computeLayout imgW imgH maxW maxH gridSize).cols.toNat
      with h0 | h1
    · rw [h0, Nat.mul_zero] at hsome; omega
    · exact h1
  have hr : ((computeLayout imgW imgH maxW maxH gridSize).rows.toNat : Int)
      = (computeLayout imgW imgH maxW maxH gridSize).rows := by omega
  have hc : ((computeLayout imgW imgH maxW maxH gridSize).cols.toNat : Int)
      = (computeLayout imgW imgH maxW maxH gridSize).cols := by omega
  rw [hlen]
  push_cast
  rw [hr, hc]

/-- The single piece of the 1×1 demo run with unit grid size over a
100×100 image in 100×100 bounds and tab ratio `1/4`. -/
def demoPiece : PuzzlePiece :=
  { id := 0, row := 0, col := 0, correctPos := (-25, -25), currentPos := (0, 0),
    shape := ⟨0, 0, 0, 0⟩, width := 150, height := 150, isLocked := false,
    zIndex := 1 }

lemma computeLayout_demo : computeLayout 100 100 100 100 1
    = { puzzleWidth := 100, puzzleHeight := 100, rows := 1, cols := 1,
        pieceWidth := 100, pieceHeight := 100 } := by
  unfold computeLayout jsRound
  norm_num

lemma shapesGrid_demo :
    shapesGrid 1 1 (fun _ _ => true) (fun _ _ => true) 0 0 = ⟨0, 0, 0, 0⟩ := by
  simp [shapesGrid, cellList, rowCells, shapeStep, writeCell, cellBody, initShapeGrid,
    List.range_succ, List.range_zero]

lemma demoRun_state :
    (generatePuzzleCore 100 100 100 100 1 (1/4) (fun _ _ => true) (fun _ _ => true)
        (fun _ _ => true)).state
      = { pieces := [demoPiece], loadedCount := 1,
          resolvedValue := some ([demoPiece], 100, 100) } := by
  have hmin : min (100 : ℚ) 100 * (1/4) = 25 := by norm_num
  simp only [generatePuzzleCore, computeLayout_demo, Int.toNat_one, hmin]
  simp only [genLoop, cellList, rowCells, List.range_succ, List.range_zero,
    List.map_nil, List.map_append, List.map_cons, List.nil_append,
    List.foldl_cons, List.foldl_nil, List.append_nil]
  simp only [pieceStep, mkPiece, shapesGrid_demo]
  norm_num [demoPiece]

/-- Witness for C4: the demo run resolves with exactly one piece, and
`1 = rows * cols`. -/
theorem resolved_count_eq_grid_witness :
    (generatePuzzleCore 100 100 100 100 1 (1/4) (fun _ _ => true) (fun _ _ => true)
        (fun _ _ => true)).state.resolvedValue = some ([demoPiece], 100, 100) ∧
    ((([demoPiece], (100 : ℚ), (100 : ℚ)).1.length : Int)
      = (computeLayout 100 100 100 100 1).rows
        * (computeLayout 100 100 100 100 1).cols) :=
  ⟨by rw [demoRun_state],
    resolved_count_eq_grid 100 100 100 100 1 (1/4) (fun _ _ => true)
      (fun _ _ => true) (fun _ _ => true) ([demoPiece], 100, 100)
      (by rw [demoRun_state])⟩

/-- Claim C5: for all positive source image dimensions and positive bounds,
the puzzle size satisfies `puzzleWidth ≤ maxWidth` and
`puzzleHeight ≤ maxHeight` with equality on at least one axis, and
`puzzleWidth / puzzleHeight` equals `imgW / imgH` exactly (the claim asks
for this within floating-point tolerance; over `ℚ` it holds exactly). -/
theorem aspect_fit_bounds (imgW imgH maxW maxH : ℚ) (gridSize : Int)
    (h1 : 0 < imgW) (h2 : 0 < imgH) (h3 : 0 < maxW) (h4 : 0 < maxH) :
    (computeLayout imgW imgH maxW maxH gridSize).puzzleWidth ≤ maxW ∧
    (computeLayout imgW imgH maxW maxH gridSize).puzzleHeight ≤ maxH ∧
    ((computeLayout imgW imgH maxW maxH gridSize).puzzleWidth = maxW ∨
      (computeLayout imgW imgH maxW maxH gridSize).puzzleHeight = maxH) ∧
    (computeLayout imgW imgH maxW maxH gridSize).puzzleWidth
        / (computeLayout imgW imgH maxW maxH gridSize).puzzleHeight
      = imgW / imgH := by
  have ha : 0 < imgW / imgH := div_pos h1 h2
  simp only [computeLayout]
  by_cases hcase : imgW / imgH > maxW / maxH
  · rw [if_pos hcase]
    have hkey : maxW * imgH < imgW * maxH := (div_lt_div_iff h4 h2).mp hcase
    refine ⟨le_rfl, ?_, Or.inl rfl, ?_⟩
    · show maxW / (imgW / imgH) ≤ maxH
      rw [div_div_eq_mul_div, div_le_iff h1]
      nlinarith
    · show maxW / (maxW / (imgW / imgH)) = imgW / imgH
      rw [div_div_eq_mul_div, mul_div_cancel_left₀ _ (ne_of_gt h3)]
  · rw [if_neg hcase]
    push_neg at hcase
    have hkey : imgW * maxH ≤ maxW * imgH := (div_le_div_iff h2 h4).mp hcase
    refine ⟨?_, le_rfl, Or.inr rfl, ?_⟩
    · show maxH * (imgW / imgH) ≤ maxW
      rw [mul_comm, div_mul_eq_mul_div, div_le_iff h2]
      nlinarith
    · show maxH * (imgW / imgH) / maxH = imgW / imgH
      rw [mul_comm, mul_div_assoc, div_self (ne_of_gt h4), mul_one]

/-- Witness for C5 at the landscape scenario `800×400` in `500×500`. -/
theorem aspect_fit_bounds_witness :
    ((0 : ℚ) < 800 ∧ (0 : ℚ) < 400 ∧ (0 : ℚ) < 500 ∧ (0 : ℚ) < 500) ∧
    ((computeLayout 800 400 500 500 5).puzzleWidth ≤ 500 ∧
     (computeLayout 800 400 500 500 5).puzzleHeight ≤ 500 ∧
     ((computeLayout 800 400 500 500 5).puzzleWidth = 500 ∨
       (computeLayout 800 400 500 500 5).puzzleHeight = 500) ∧
     (computeLayout 800 400 500 500 5).puzzleWidth
         / (computeLayout 800 400 500 500 5).puzzleHeight
       = 800 / 400) :=
  ⟨⟨by norm_num, by norm_num, by norm_num, by norm_num⟩,
    aspect_fit_bounds 800 400 500 500 5 (by norm_num) (by norm_num) (by norm_num)
      (by norm_num)⟩

/-- Claim C6: the Layout Planner's grid rule — for a landscape or square
image (`imageAspect ≥ 1`), `rows = baseGrid` and
`cols = round(baseGrid * imageAspect)`; for a portrait image,
`cols = baseGrid` and `rows = round(baseGrid * (1/imageAspect))`; piece
sizes are `puzzleWidth / cols` and `puzzleHeight / rows`; and the concrete
scenario `imgW=800, imgH=400, gridSize=5, maxWidth=maxHeight=500` yields
`puzzleWidth=500, puzzleHeight=250, rows=5, cols=10` (50 pieces). -/
theorem layout_grid_formula (imgW imgH maxW maxH : ℚ) (gridSize : Int)
    (h1 : 0 < imgW) (h2 : 0 < imgH) (h3 : 0 < maxW) (h4 : 0 < maxH)
    (h5 : 0 < gridSize) :
    (1 ≤ imgW / imgH →
      (computeLayout imgW imgH maxW maxH gridSize).rows = gridSize ∧
      (computeLayout imgW imgH maxW maxH gridSize).cols
        = jsRound ((gridSize : ℚ) * (imgW / imgH))) ∧
    (imgW / imgH < 1 →
      (computeLayout imgW imgH maxW maxH gridSize).cols = gridSize ∧
      (computeLayout imgW imgH maxW maxH gridSize).rows
        = jsRound ((gridSize : ℚ) * (1 / (imgW / imgH)))) ∧
    (computeLayout imgW imgH maxW maxH gridSize).pieceWidth
      = (computeLayout imgW imgH maxW maxH gridSize).puzzleWidth
        / (((computeLayout imgW imgH maxW maxH gridSize).cols : ℚ)) ∧
    (computeLayout imgW imgH maxW maxH gridSize).pieceHeight
      = (computeLayout imgW imgH maxW maxH gridSize).puzzleHeight
        / (((computeLayout imgW imgH maxW maxH gridSize).rows : ℚ)) ∧
    computeLayout 800 400 500 500 5
      = { puzzleWidth := 500, puzzleHeight := 250, rows := 5, cols := 10,
          pieceWidth := 50, pieceHeight := 50 } := by
  refine ⟨?_, ?_, rfl, rfl, ?_⟩
  · intro hA
    simp only [computeLayout]
    rw [if_pos (show imgW / imgH ≥ 1 from hA)]
    exact ⟨rfl, rfl⟩
  · intro hA
    simp only [computeLayout]
    rw [if_neg (show ¬(imgW / imgH ≥ 1) from not_le.mpr hA)]
    exact ⟨rfl, rfl⟩
  · unfold computeLayout jsRound
    norm_num

/-- Witness for C6 at the landscape scenario. -/
theorem layout_grid_formula_witness :
    ((0 : ℚ) < 800 ∧ (0 : ℚ) < 400 ∧ (0 : ℚ) < 500 ∧ (0 : ℚ) < 500 ∧
      (0 : Int) < 5) ∧
    ((1 ≤ (800 : ℚ) / 400 →
      (computeLayout 800 400 500 500 5).rows = 5 ∧
      (computeLayout 800 400 500 500 5).cols
        = jsRound (((5 : Int) : ℚ) * (800 / 400))) ∧
    ((800 : ℚ) / 400 < 1 →
      (computeLayout 800 400 500 500 5).cols = 5 ∧
      (computeLayout 800 400 500 500 5).rows
        = jsRound (((5 : Int) : ℚ) * (1 / (800 / 400)))) ∧
    (computeLayout 800 400 500 500 5).pieceWidth
      = (computeLayout 800 400 500 500 5).puzzleWidth
        / (((computeLayout 800 400 500 500 5).cols : ℚ)) ∧
    (computeLayout 800 400 500 500 5).pieceHeight
      = (computeLayout 800 400 500 500 5).puzzleHeight
        / (((computeLayout 800 400 500 500 5).rows : ℚ)) ∧
    computeLayout 800 400 500 500 5
      = { puzzleWidth := 500, puzzleHeight := 250, rows := 5, cols := 10,
          pieceWidth := 50, pieceHeight := 50 }) :=
  ⟨⟨by norm_num, by norm_num, by norm_num, by norm_num, by norm_num⟩,
    layout_grid_formula 800 400 500 500 5 (by norm_num) (by norm_num)
      (by norm_num) (by norm_num) (by norm_num)⟩

/-- Claim C7: every piece emitted for cell `(row, col)` carries exactly the
claimed metadata: `id = row*cols + col`; canvas size
`pieceWidth + 2*tabSize` by `pieceHeight + 2*tabSize` where
`tabSize = min(pieceWidth, pieceHeight) * TAB_SIZE_RATIO` (the constant from
`constants.ts` kept abstract as `tabFrac`);
`correctPos = (col*pieceWidth - tabSize, row*pieceHeight - tabSize)`;
`currentPos = (0, 0)`; `isLocked = false`; and the cell's shape
descriptor. -/
theorem piece_metadata_exact (imgW imgH maxW maxH : ℚ) (gridSize : Int)
    (tabFrac : ℚ) (rndR rndB ctxOk : Nat → Nat → Bool) (p : PuzzlePiece)
    (hp : p ∈ (generatePuzzleCore imgW imgH maxW maxH gridSize tabFrac rndR rndB
        ctxOk).state.pieces) :
    (generatePuzzleCore imgW imgH maxW maxH gridSize tabFrac rndR rndB ctxOk).tabSize
        = min (computeLayout imgW imgH maxW maxH gridSize).pieceWidth
            (computeLayout imgW imgH maxW maxH gridSize).pieceHeight * tabFrac ∧
    (p.id : Int)
        = p.row * (computeLayout imgW imgH maxW maxH gridSize).cols + p.col ∧
    p.width = (computeLayout imgW imgH maxW maxH gridSize).pieceWidth
        + 2 * (generatePuzzleCore imgW imgH maxW maxH gridSize tabFrac rndR rndB
            ctxOk).tabSize ∧
    p.height = (computeLayout imgW imgH maxW maxH gridSize).pieceHeight
        + 2 * (generatePuzzleCore imgW imgH maxW maxH gridSize tabFrac rndR rndB
            ctxOk).tabSize ∧
    p.correctPos
        = ((p.col : ℚ) * (computeLayout imgW imgH maxW maxH gridSize).pieceWidth
            - (generatePuzzleCore imgW imgH maxW maxH gridSize tabFrac rndR rndB
                ctxOk).tabSize,
           (p.row : ℚ) * (computeLayout imgW imgH maxW maxH gridSize).pieceHeight
            - (generatePuzzleCore imgW imgH maxW maxH gridSize tabFrac rndR rndB
                ctxOk).tabSize) ∧
    p.currentPos = (0, 0) ∧
    p.isLocked = false ∧
    p.shape = (generatePuzzleCore imgW imgH maxW maxH gridSize tabFrac rndR rndB
        ctxOk).shapes p.row p.col := by
  have hinv := genFold_inv
    (computeLayout imgW imgH maxW maxH gridSize).cols.toNat
    ((computeLayout imgW imgH maxW maxH gridSize).rows.toNat
      * (computeLayout imgW imgH maxW maxH gridSize).cols.toNat)
    (computeLayout imgW imgH maxW maxH gridSize).pieceWidth
    (computeLayout imgW imgH maxW maxH gridSize).pieceHeight
    (min (computeLayout imgW imgH maxW maxH gridSize).pieceWidth
      (computeLayout imgW imgH maxW maxH gridSize).pieceHeight * tabFrac)
    (computeLayout imgW imgH maxW maxH gridSize).puzzleWidth
    (computeLayout imgW imgH maxW maxH gridSize).puzzleHeight
    (shapesGrid (computeLayout imgW imgH maxW maxH gridSize).rows.toNat
      (computeLayout imgW imgH maxW maxH gridSize).cols.toNat rndR rndB)
    ctxOk
    (fun q => ∃ r c,
      r < (computeLayout imgW imgH maxW maxH gridSize).rows.toNat ∧
      c < (computeLayout imgW imgH maxW maxH gridSize).cols.toNat ∧
      q = mkPiece (computeLayout imgW imgH maxW maxH gridSize).cols.toNat
          (computeLayout imgW imgH maxW maxH gridSize).pieceWidth
          (computeLayout imgW imgH maxW maxH gridSize).pieceHeight
          (min (computeLayout imgW imgH maxW maxH gridSize).pieceWidth
            (computeLayout imgW imgH maxW maxH gridSize).pieceHeight * tabFrac)
          (shapesGrid (computeLayout imgW imgH maxW maxH gridSize).rows.toNat
            (computeLayout imgW imgH maxW maxH gridSize).cols.toNat rndR rndB r c)
          r c)
    (cellList (computeLayout imgW imgH maxW maxH gridSize).rows.toNat
      (computeLayout imgW imgH maxW maxH gridSize).cols.toNat)
    ⟨[], 0, none⟩
    (fun rc hmem _ => ⟨rc.1, rc.2,
      ((mem_cellList _ _ rc.1 rc.2).mp hmem).1,
      ((mem_cellList _ _ rc.1 rc.2).mp hmem).2, rfl⟩)
    (genInit_inv _ _ _ _)
  obtain ⟨r, c, hrlt, hclt, hpe⟩ := hinv.2.2.2 p hp
  have hcols : (((computeLayout imgW imgH maxW maxH gridSize).cols.toNat : Int))
      = (computeLayout imgW imgH maxW maxH gridSize).cols := by omega
  have htab : (generatePuzzleCore imgW imgH maxW maxH gridSize tabFrac rndR rndB
      ctxOk).tabSize
      = min (computeLayout imgW imgH maxW maxH gridSize).pieceWidth
          (computeLayout imgW imgH maxW maxH gridSize).pieceHeight * tabFrac := rfl
  refine ⟨rfl, ?_, ?_, ?_, ?_, ?_, ?_, ?_⟩
  · rw [hpe]
    simp only [mkPiece]
    push_cast
    rw [hcols]
  · rw [hpe, htab]
    simp only [mkPiece]
    ring
  · rw [hpe, htab]
    simp only [mkPiece]
    ring
  · rw [hpe]
    simp only [mkPiece, htab]
  · rw [hpe]
    simp only [mkPiece]
  · rw [hpe]
    simp only [mkPiece]
  · rw [hpe]
    exact rfl

/-- Witness for C7: the demo run's single piece carries the claimed
metadata. -/
theorem piece_metadata_exact_witness :
    demoPiece ∈ (generatePuzzleCore 100 100 100 100 1 (1/4) (fun _ _ => true)
        (fun _ _ => true) (fun _ _ => true)).state.pieces ∧
    ((generatePuzzleCore 100 100 100 100 1 (1/4) (fun _ _ => true)
        (fun _ _ => true) (fun _ _ => true)).tabSize
        = min (computeLayout 100 100 100 100 1).pieceWidth
            (computeLayout 100 100 100 100 1).pieceHeight * (1/4) ∧
     (demoPiece.id : Int)
        = demoPiece.row * (computeLayout 100 100 100 100 1).cols + demoPiece.col ∧
     demoPiece.width = (computeLayout 100 100 100 100 1).pieceWidth
        + 2 * (generatePuzzleCore 100 100 100 100 1 (1/4) (fun _ _ => true)
            (fun _ _ => true) (fun _ _ => true)).tabSize ∧
     demoPiece.height = (computeLayout 100 100 100 100 1).pieceHeight
        + 2 * (generatePuzzleCore 100 100 100 100 1 (1/4) (fun _ _ => true)
            (fun _ _ => true) (fun _ _ => true)).tabSize ∧
     demoPiece.correctPos
        = ((demoPiece.col : ℚ) * (computeLayout 100 100 100 100 1).pieceWidth
            - (generatePuzzleCore 100 100 100 100 1 (1/4) (fun _ _ => true)
                (fun _ _ => true) (fun _ _ => true)).tabSize,
           (demoPiece.row : ℚ) * (computeLayout 100 100 100 100 1).pieceHeight
            - (generatePuzzleCore 100 100 100 100 1 (1/4) (fun _ _ => true)
                (fun _ _ => true) (fun _ _ => true)).tabSize) ∧
     demoPiece.currentPos = (0, 0) ∧
     demoPiece.isLocked = false ∧
     demoPiece.shape = (generatePuzzleCore 100 100 100 100 1 (1/4) (fun _ _ => true)
        (fun _ _ => true) (fun _ _ => true)).shapes demoPiece.row demoPiece.col) := by
  have hmem : demoPiece ∈ (generatePuzzleCore 100 100 100 100 1 (1/4)
      (fun _ _ => true) (fun _ _ => true) (fun _ _ => true)).state.pieces := by
    rw [demoRun_state]
    simp
  exact ⟨hmem,
    piece_metadata_exact 100 100 100 100 1 (1/4) (fun _ _ => true)
      (fun _ _ => true) (fun _ _ => true) demoPiece hmem⟩

/-- One canvas path command emitted by the drawing code. -/
inductive PathCmd where
  | lineTo (p : ℝ × ℝ)
  | bezierCurveTo (c1 c2 p : ℝ × ℝ)

/-- `drawTab` (source lines 276-311): the three path commands emitted for a
tab (`dir = 1`) or slot (`dir = -1`) edge from `(x1, y1)` to `(x2, y2)`;
the pen is assumed to sit at `(x1, y1)`. -/
noncomputable def drawTab (x1 y1 x2 y2 dir size : ℝ) : List PathCmd :=
  let cx := (x1 + x2) / 2
  let cy := (y1 + y2) / 2
  let dx := x2 - x1
  let dy := y2 - y1
  let len := Real.sqrt (dx * dx + dy * dy)
  let nx := -dy / len * dir
  let ny := dx / len * dir
  let neck := len * 0.2
  let x1_neck := cx - dx / len * neck
  let y1_neck := cy - dy / len * neck
  let x2_neck := cx + dx / len * neck
  let y2_neck := cy + dy / len * neck
  let headX := cx + nx * size
  let headY := cy + ny * size
  [PathCmd.bezierCurveTo
      (x1_neck + nx * (size * 0.2), y1_neck + ny * (size * 0.2))
      (headX - dx / len * size, headY - dy / len * (size * 0.2))
      (headX - dx / len * (size * 0.2), headY),
   PathCmd.bezierCurveTo
      (headX + dx / len * (size * 0.2), headY)
      (headX + dx / len * size, headY + dy / len * (size * 0.2))
      (x2_neck + nx * (size * 0.2), y2_neck + ny * (size * 0.2)),
   PathCmd.lineTo (x2, y2)]

/-- `drawJigsawPath` (source lines 235-274): walk the four edges in the
order top, right, bottom, left starting at `(x, y)`; a nonzero edge emits
`drawTab`, a flat edge a straight segment (`closePath` adds no point). -/
noncomputable def drawJigsawPath (x y w h : ℝ) (shape : PieceShape)
    (tabSize : ℝ) : List PathCmd :=
  (if shape.top ≠ 0 then drawTab x y (x + w) y (shape.top : ℝ) tabSize
   else [PathCmd.lineTo (x + w, y)]) ++
  (if shape.right ≠ 0 then drawTab (x + w) y (x + w) (y + h) (shape.right : ℝ) tabSize
   else [PathCmd.lineTo (x + w, y + h)]) ++
  (if shape.bottom ≠ 0 then drawTab (x + w) (y + h) x (y + h) (shape.bottom : ℝ) tabSize
   else [PathCmd.lineTo (x, y + h)]) ++
  (if shape.left ≠ 0 then drawTab x (y + h) x y (shape.left : ℝ) tabSize
   else [PathCmd.lineTo (x, y)])

/-- Point of the straight segment from `p0` to `p1` at parameter `t`. -/
def segPoint (p0 p1 : ℝ × ℝ) (t : ℝ) : ℝ × ℝ :=
  ((1 - t) * p0.1 + t * p1.1, (1 - t) * p0.2 + t * p1.2)

/-- Point of the cubic bezier with control polygon `p0 p1 p2 p3`. -/
def bezPoint (p0 p1 p2 p3 : ℝ × ℝ) (t : ℝ) : ℝ × ℝ :=
  ((1 - t) ^ 3 * p0.1 + 3 * (1 - t) ^ 2 * t * p1.1
      + 3 * (1 - t) * t ^ 2 * p2.1 + t ^ 3 * p3.1,
   (1 - t) ^ 3 * p0.2 + 3 * (1 - t) ^ 2 * t * p1.2
      + 3 * (1 - t) * t ^ 2 * p2.2 + t ^ 3 * p3.2)

/-- The end point a command leaves the pen at. -/
def cmdTarget : PathCmd → ℝ × ℝ
  | PathCmd.lineTo p => p
  | PathCmd.bezierCurveTo _ _ p => p

/-- The set of points a command traces from pen position `cur`. -/
def cmdPoints (cur : ℝ × ℝ) : PathCmd → Set (ℝ × ℝ)
  | PathCmd.lineTo p => {q | ∃ t : ℝ, 0 ≤ t ∧ t ≤ 1 ∧ q = segPoint cur p t}
  | PathCmd.bezierCurveTo c1 c2 p =>
      {q | ∃ t : ℝ, 0 ≤ t ∧ t ≤ 1 ∧ q = bezPoint cur c1 c2 p t}

/-- All points a command list traces starting from `start`. -/
def pathPoints : (ℝ × ℝ) → List PathCmd → Set (ℝ × ℝ)
  | _, [] => ∅
  | cur, c :: cs => cmdPoints cur c ∪ pathPoints (cmdTarget c) cs

lemma sqrt_hundred : Real.sqrt 100 = 10 := by
  rw [show (100 : ℝ) = 10 ^ 2 by norm_num]
  exact Real.sqrt_sq (by norm_num)

lemma drawTab_fwd_eval :
    drawTab 0 0 10 0 1 2 =
      [PathCmd.bezierCurveTo (3, 2/5) (3, 2) (23/5, 2),
       PathCmd.bezierCurveTo (27/5, 2) (7, 2) (7, 2/5),
       PathCmd.lineTo (10, 0)] := by
  simp only [drawTab]
  rw [show ((10 : ℝ) - 0) * (10 - 0) + (0 - 0) * (0 - 0) = 100 by norm_num,
    sqrt_hundred]
  norm_num

lemma drawTab_rev_eval :
    drawTab 10 0 0 0 (-1) 2 =
      [PathCmd.bezierCurveTo (7, 2/5) (7, 2) (27/5, 2),
       PathCmd.bezierCurveTo (23/5, 2) (3, 2) (3, 2/5),
       PathCmd.lineTo (0, 0)] := by
  simp only [drawTab]
  rw [show ((0 : ℝ) - 10) * (0 - 10) + (0 - 0) * (0 - 0) = 100 by norm_num,
    sqrt_hundred]
  norm_num

lemma fwd_contains_neck_point :
    ((7 : ℝ), (2/5 : ℝ)) ∈ pathPoints (0, 0) (drawTab 0 0 10 0 1 2) := by
  rw [drawTab_fwd_eval]
  simp only [pathPoints, cmdPoints, cmdTarget, Set.mem_union, Set.mem_setOf_eq]
  refine Or.inr (Or.inl ⟨1, by norm_num, by norm_num, ?_⟩)
  norm_num [bezPoint, Prod.mk.injEq]

lemma rev_misses_neck_point :
    ((7 : ℝ), (2/5 : ℝ)) ∉ pathPoints (10, 0) (drawTab 10 0 0 0 (-1) 2) := by
  rw [drawTab_rev_eval]
  intro hmem
  simp only [pathPoints, cmdPoints, cmdTarget, Set.mem_union, Set.mem_setOf_eq,
    Set.mem_empty_iff_false, or_false] at hmem
  rcases hmem with ⟨t, ht0, ht1, heq⟩ | ⟨t, ht0, ht1, heq⟩ | ⟨t, ht0, ht1, heq⟩
  · have hx := congrArg Prod.fst heq
    have hy := congrArg Prod.snd heq
    simp only [bezPoint] at hx hy
    by_cases hhalf : t ≤ 1/2
    · have hu : (0:ℝ) ≤ 1/2 - t := by linarith
      nlinarith [hx, hu, sq_nonneg (1/2 - t), mul_nonneg (mul_nonneg hu hu) hu]
    · push_neg at hhalf
      have hv : (0:ℝ) ≤ t - 1/2 := by linarith
      have h1t : (0:ℝ) ≤ 1 - t := by linarith
      nlinarith [hy, hv, mul_nonneg hv h1t, mul_nonneg (mul_nonneg hv hv) h1t]
  · have hx := congrArg Prod.fst heq
    simp only [bezPoint] at hx
    have h1t : (0:ℝ) ≤ 1 - t := by linarith
    nlinarith [hx, ht0, mul_nonneg (mul_nonneg ht0 ht0) h1t]
  · have hx := congrArg Prod.fst heq
    simp only [segPoint] at hx
    nlinarith [hx, ht0]

/-- Claim C2 counterexample: on the shared horizontal edge from `(0,0)` to
`(10,0)` with tab size `2`, the cut curve one piece emits with shape value
`1` (traversed left to right) and the curve the neighboring piece emits
with shape value `-1` (traversed right to left) are not the same set of
points: `(7, 2/5)`, the junction of the first traversal's bezier with its
straight exit-neck segment, lies on the first curve but not on the second —
the straight neck sits at the exit end of each traversal, so the two
curves group their segments differently and do not coincide. -/
theorem drawTab_curve_sets_differ :
    ¬ (pathPoints (0, 0) (drawTab 0 0 10 0 1 2)
        = pathPoints (10, 0) (drawTab 10 0 0 0 (-1) 2)) := fun h =>
  rev_misses_neck_point (h ▸ fwd_contains_neck_point)

/-- The control and end points a command contributes, in drawing order. -/
def cmdEmits : PathCmd → List (ℝ × ℝ)
  | PathCmd.lineTo p => [p]
  | PathCmd.bezierCurveTo c1 c2 p => [c1, c2, p]

/-- The full point sequence of a path: the start point followed by every
emitted control and end point. -/
def emittedPoints (start : ℝ × ℝ) (cmds : List PathCmd) : List (ℝ × ℝ) :=
  start :: cmds.foldr (fun c acc => cmdEmits c ++ acc) []

/-- Claim C2 (amended): for a shared edge (same two endpoints, same tab
size), the neighboring piece's traversal in the opposite direction with the
negated shape value emits exactly the reversed sequence of path points
(start point, bezier control and end points, line endpoint) of the piece's
own traversal — so the endpoints, neck junctions and tab apex coincide —
but the commands group these points differently (the straight neck segment
lies at the exit end of each traversal), so the two emitted curves need not
coincide as point sets. -/
theorem drawTab_reverse_traversal_points (x1 y1 x2 y2 dir size : ℝ)
    (h : (x1, y1) ≠ (x2, y2)) :
    emittedPoints (x2, y2) (drawTab x2 y2 x1 y1 (-dir) size)
      = (emittedPoints (x1, y1) (drawTab x1 y1 x2 y2 dir size)).reverse := by
  have hne : ¬(x1 = x2 ∧ y1 = y2) := by
    intro hc
    exact h (by rw [hc.1, hc.2])
  have hpos : 0 < (x2 - x1) * (x2 - x1) + (y2 - y1) * (y2 - y1) := by
    rcases not_and_or.mp hne with hx | hy
    · have h0 : 0 < (x2 - x1) * (x2 - x1) :=
        mul_self_pos.mpr (sub_ne_zero.mpr (fun he => hx he.symm))
      nlinarith [mul_self_nonneg (y2 - y1)]
    · have h0 : 0 < (y2 - y1) * (y2 - y1) :=
        mul_self_pos.mpr (sub_ne_zero.mpr (fun he => hy he.symm))
      nlinarith [mul_self_nonneg (x2 - x1)]
  have harg : (x1 - x2) * (x1 - x2) + (y1 - y2) * (y1 - y2)
      = (x2 - x1) * (x2 - x1) + (y2 - y1) * (y2 - y1) := by ring
  have hlen : (0:ℝ) < Real.sqrt ((x2 - x1) * (x2 - x1) + (y2 - y1) * (y2 - y1)) :=
    Real.sqrt_pos.mpr hpos
  have hLne : Real.sqrt ((x2 - x1) * (x2 - x1) + (y2 - y1) * (y2 - y1)) ≠ 0 :=
    ne_of_gt hlen
  simp only [drawTab, emittedPoints, cmdEmits, List.foldr_cons, List.foldr_nil,
    harg, List.cons_append, List.nil_append, List.append_nil,
    List.reverse_cons, List.reverse_nil]
  simp only [List.cons.injEq, Prod.mk.injEq, and_true]
  repeat' apply And.intro
  all_goals field_simp
  all_goals ring

/-- Witness for the amended C2 on the unit edge `(0,0)`–`(1,0)`. -/
theorem drawTab_reverse_traversal_points_witness :
    ((0 : ℝ), (0 : ℝ)) ≠ ((1 : ℝ), (0 : ℝ)) ∧
    emittedPoints (1, 0) (drawTab 1 0 0 0 (-1) 1)
      = (emittedPoints (0, 0) (drawTab 0 0 1 0 1 1)).reverse :=
  ⟨by norm_num [Prod.ext_iff],
    drawTab_reverse_traversal_points 0 0 1 0 1 1 (by norm_num [Prod.ext_iff])⟩

/-- The game component state the pointer handlers act on: the `pieces`
array, the dragged piece id, and the drag offset.  (The timer and the
loading flag do not touch pieces and are not modelled.) -/
structure GState where
  pieces : List PuzzlePiece
  draggedPieceId : Option Nat
  dragOffset : ℚ × ℚ

/-- `handlePointerDown` (game component lines 100-128) for a press on piece
`pid`, pointer at `(clientX, clientY)`, board rectangle origin at
`(boardLeft, boardTop)`: a missing or locked piece is ignored; otherwise
the piece is raised above the maximum z-index (`Math.max(...zIndexes, 1)`),
selected for dragging, and the pointer offset inside the piece recorded. -/
def handlePointerDown (s : GState) (pid : Nat)
    (clientX clientY boardLeft boardTop : ℚ) : GState :=
  match s.pieces.find? (fun p => p.id == pid) with
  | none => s
  | some piece =>
    if piece.isLocked then s
    else
      { pieces := s.pieces.map (fun p =>
          if p.id == pid then
            { p with zIndex := ((s.pieces.map (fun q => q.zIndex)).foldl max 1) + 1 }
          else p)
        draggedPieceId := some pid
        dragOffset := (clientX - (boardLeft + piece.currentPos.1),
                       clientY - (boardTop + piece.currentPos.2)) }

/-- `handlePointerMove` (lines 130-146): while a piece is dragged, set its
current position from the pointer and the recorded offset; every other
piece is returned unchanged. -/
def handlePointerMove (s : GState) (clientX clientY boardLeft boardTop : ℚ) :
    GState :=
  match s.draggedPieceId with
  | none => s
  | some did =>
    { s with pieces := s.pieces.map (fun p =>
        if p.id == did then
          { p with currentPos := (clientX - boardLeft - s.dragOffset.1,
                                  clientY - boardTop - s.dragOffset.2) }
        else p) }

/-- `handlePointerUp` (lines 148-170) with snap tolerance `tol`
(`SNAP_TOLERANCE` lives in `constants.ts`, not among the given sources, so
it is kept abstract): if a piece is being dragged and the Euclidean
distance from its current to its correct position is strictly below the
tolerance, that piece snaps exactly onto `correctPos`, is locked and sent
to the back (`zIndex 0`); otherwise the pieces are untouched.  The drag
always ends. -/
noncomputable def handlePointerUp (tol : ℚ) (s : GState) : GState :=
  match s.draggedPieceId with
  | none => s
  | some did =>
    match s.pieces.find? (fun p => p.id == did) with
    | none => { s with draggedPieceId := none }
    | some piece =>
      if Real.sqrt (((piece.currentPos.1 - piece.correctPos.1) ^ 2
          + (piece.currentPos.2 - piece.correctPos.2) ^ 2 : ℚ) : ℝ)
          < (tol : ℝ) then
        { s with
          pieces := s.pieces.map (fun p =>
            if p.id == did then
              { p with currentPos := p.correctPos, isLocked := true, zIndex := 0 }
            else p),
          draggedPieceId := none }
      else { s with draggedPieceId := none }

/-- A pointer event as dispatched to the handlers. -/
inductive GEvent where
  | pointerDown (pid : Nat) (clientX clientY boardLeft boardTop : ℚ)
  | pointerMove (clientX clientY boardLeft boardTop : ℚ)
  | pointerUp

def eventIsPointerDown : GEvent → Bool
  | GEvent.pointerDown _ _ _ _ _ => true
  | _ => false

/-- One interaction step of the game component. -/
noncomputable def gameStep (tol : ℚ) (s : GState) : GEvent → GState
  | GEvent.pointerDown pid cx cy bl bt => handlePointerDown s pid cx cy bl bt
  | GEvent.pointerMove cx cy bl bt => handlePointerMove s cx cy bl bt
  | GEvent.pointerUp => handlePointerUp tol s

/-- Reachable-state invariant of the game: piece ids are distinct, locked
pieces sit exactly on their correct position, and the dragged piece (if
any) is unlocked. -/
def GInv (s : GState) : Prop :=
  (s.pieces.map (fun p => p.id)).Nodup ∧
  (∀ p ∈ s.pieces, p.isLocked = true → p.currentPos = p.correctPos) ∧
  (∀ did, s.draggedPieceId = some did →
    ∀ p ∈ s.pieces, p.id = did → p.isLocked = false)

lemma map_field_id (f : PuzzlePiece → PuzzlePiece)
    (hf : ∀ p, (f p).id = p.id) (l : List PuzzlePiece) :
    (l.map f).map (fun p => p.id) = l.map (fun p => p.id) := by
  induction l with
  | nil => rfl
  | cons p l ih => simp [hf p, ih]

lemma nodup_id_eq {l : List PuzzlePiece} (hnd : (l.map (fun p => p.id)).Nodup)
    {p q : PuzzlePiece} (hp : p ∈ l) (hq : q ∈ l) (hid : p.id = q.id) : p = q :=
  List.inj_on_of_nodup_map hnd hp hq hid

lemma mapUpdate_facts (l : List PuzzlePiece) (f : PuzzlePiece → PuzzlePiece)
    (hid : ∀ p, (f p).id = p.id)
    (hlock : ∀ p ∈ l, p.isLocked = true → f p = p) :
    ((l.map f).map (fun p => p.id) = l.map (fun p => p.id)) ∧
    (l.map f).length = l.length ∧
    (∀ i (h : i < l.length) (h' : i < (l.map f).length),
      (l.get ⟨i, h⟩).isLocked = true → (l.map f).get ⟨i, h'⟩ = l.get ⟨i, h⟩) := by
  refine ⟨map_field_id f hid l, List.length_map l f, ?_⟩
  intro i h h' hl
  rw [List.get_eq_getElem, List.get_eq_getElem, List.getElem_map]
  exact hlock _ (List.getElem_mem h) hl

lemma get_map_untouched (l : List PuzzlePiece) (f : PuzzlePiece → PuzzlePiece)
    (i : Nat) (h : i < l.length) (h' : i < (l.map f).length)
    (hp : f (l.get ⟨i, h⟩) = l.get ⟨i, h⟩) :
    (l.map f).get ⟨i, h'⟩ = l.get ⟨i, h⟩ := by
  rw [List.get_eq_getElem, List.get_eq_getElem, List.getElem_map]
  exact hp

lemma handlePointerDown_facts (s : GState) (pid : Nat) (cx cy bl bt : ℚ)
    (hinv : GInv s) :
    GInv (handlePointerDown s pid cx cy bl bt) ∧
    (handlePointerDown s pid cx cy bl bt).pieces.length = s.pieces.length ∧
    (∀ i (h : i < s.pieces.length)
        (h' : i < (handlePointerDown s pid cx cy bl bt).pieces.length),
      (s.pieces.get ⟨i, h⟩).isLocked = true →
      (handlePointerDown s pid cx cy bl bt).pieces.get ⟨i, h'⟩
        = s.pieces.get ⟨i, h⟩) ∧
    (∀ piece, s.pieces.find? (fun p => p.id == pid) = some piece →
      piece.isLocked = true → handlePointerDown s pid cx cy bl bt = s) := by
  obtain ⟨hnd, hlockpos, hdragun⟩ := hinv
  unfold handlePointerDown
  rcases hfind : s.pieces.find? (fun p => p.id == pid) with _ | q
  · try rw [hfind]
    exact ⟨⟨hnd, hlockpos, hdragun⟩, rfl, fun i h h' _ => rfl,
      fun piece hpf => absurd hpf (by simp)⟩
  · try rw [hfind]
    have hqmem : q ∈ s.pieces := List.mem_of_find?_eq_some hfind
    have hqid : q.id = pid := by
      have := List.find?_some hfind
      simpa using this
    dsimp only
    by_cases hq : q.isLocked = true
    · rw [if_pos hq]
      exact ⟨⟨hnd, hlockpos, hdragun⟩, rfl, fun i h h' _ => rfl,
        fun piece hpf hpl => rfl⟩
    · rw [if_neg hq]
      rw [Bool.not_eq_true] at hq
      set f : PuzzlePiece → PuzzlePiece := fun p =>
        if p.id == pid then
          { p with zIndex := ((s.pieces.map (fun r => r.zIndex)).foldl max 1) + 1 }
        else p with hf
      have hidf : ∀ p, (f p).id = p.id := by
        intro p
        rw [hf]
        by_cases hb : (p.id == pid) = true <;> simp [hb]
      have hlkf : ∀ p, (f p).isLocked = p.isLocked := by
        intro p
        rw [hf]
        by_cases hb : (p.id == pid) = true <;> simp [hb]
      have hcurf : ∀ p, (f p).currentPos = p.currentPos := by
        intro p
        rw [hf]
        by_cases hb : (p.id == pid) = true <;> simp [hb]
      have hcorf : ∀ p, (f p).correctPos = p.correctPos := by
        intro p
        rw [hf]
        by_cases hb : (p.id == pid) = true <;> simp [hb]
      have hlockf : ∀ p ∈ s.pieces, p.isLocked = true → f p = p := by
        intro p hp hl
        rw [hf]
        have hne : ¬(p.id == pid) = true := by
          simp only [beq_iff_eq]
          intro he
          have hpq : p = q := nodup_id_eq hnd hp hqmem (he.trans hqid.symm)
          rw [hpq, hq] at hl
          exact absurd hl (by simp)
        simp [hne]
      obtain ⟨m1, m2, m3⟩ := mapUpdate_facts s.pieces f hidf hlockf
      refine ⟨⟨?_, ?_, ?_⟩, m2, m3, ?_⟩
      · show ((s.pieces.map f).map (fun p => p.id)).Nodup
        rw [m1]
        exact hnd
      · show ∀ p' ∈ s.pieces.map f, p'.isLocked = true →
          p'.currentPos = p'.correctPos
        intro p' hp' hl'
        obtain ⟨p, hp, rfl⟩ := List.mem_map.mp hp'
        rw [hlkf p] at hl'
        rw [hcurf p, hcorf p]
        exact hlockpos p hp hl'
      · show ∀ did, some pid = some did → ∀ p' ∈ s.pieces.map f,
          p'.id = did → p'.isLocked = false
        intro did hdid p' hp' hpid'
        injection hdid with hdid
        subst hdid
        obtain ⟨p, hp, rfl⟩ := List.mem_map.mp hp'
        have hpid : p.id = pid := by rw [← hidf p]; exact hpid'
        have hpq : p = q := nodup_id_eq hnd hp hqmem (hpid.trans hqid.symm)
        rw [hlkf p, hpq]
        exact hq
      · intro piece hpf hpl
        injection hpf with hpf
        rw [← hpf, hq] at hpl
        exact absurd hpl (by simp)

lemma handlePointerMove_facts (s : GState) (cx cy bl bt : ℚ) (hinv : GInv s) :
    GInv (handlePointerMove s cx cy bl bt) ∧
    (handlePointerMove s cx cy bl bt).pieces.length = s.pieces.length ∧
    (∀ i (h : i < s.pieces.length)
        (h' : i < (handlePointerMove s cx cy bl bt).pieces.length),
      (s.pieces.get ⟨i, h⟩).isLocked = true →
      (handlePointerMove s cx cy bl bt).pieces.get ⟨i, h'⟩
        = s.pieces.get ⟨i, h⟩) := by
  obtain ⟨hnd, hlockpos, hdragun⟩ := hinv
  unfold handlePointerMove
  rcases hdrag : s.draggedPieceId with _ | did
  · try rw [hdrag]
    exact ⟨⟨hnd, hlockpos, hdragun⟩, rfl, fun i h h' _ => rfl⟩
  · try rw [hdrag]
    dsimp only
    set f : PuzzlePiece → PuzzlePiece := fun p =>
      if p.id == did then
        { p with currentPos := (cx - bl - s.dragOffset.1,
                                cy - bt - s.dragOffset.2) }
      else p with hf
    have hidf : ∀ p, (f p).id = p.id := by
      intro p
      rw [hf]
      by_cases hb : (p.id == did) = true <;> simp [hb]
    have hlkf : ∀ p, (f p).isLocked = p.isLocked := by
      intro p
      rw [hf]
      by_cases hb : (p.id == did) = true <;> simp [hb]
    have hlockf : ∀ p ∈ s.pieces, p.isLocked = true → f p = p := by
      intro p hp hl
      rw [hf]
      have hne : ¬(p.id == did) = true := by
        simp only [beq_iff_eq]
        intro he
        have hfalse := hdragun did hdrag p hp he
        rw [hl] at hfalse
        exact absurd hfalse (by simp)
      simp [hne]
    obtain ⟨m1, m2, m3⟩ := mapUpdate_facts s.pieces f hidf hlockf
    refine ⟨⟨?_, ?_, ?_⟩, m2, m3⟩
    · show ((s.pieces.map f).map (fun p => p.id)).Nodup
      rw [m1]
      exact hnd
    · show ∀ p' ∈ s.pieces.map f, p'.isLocked = true →
        p'.currentPos = p'.correctPos
      intro p' hp' hl'
      obtain ⟨p, hp, rfl⟩ := List.mem_map.mp hp'
      rw [hlkf p] at hl'
      rw [hlockf p hp hl']
      exact hlockpos p hp hl'
    · show ∀ did', some did = some did' → ∀ p' ∈ s.pieces.map f,
        p'.id = did' → p'.isLocked = false
      intro did' hdid' p' hp' hpid'
      injection hdid' with hdid'
      subst hdid'
      obtain ⟨p, hp, rfl⟩ := List.mem_map.mp hp'
      rw [hlkf p]
      exact hdragun did hdrag p hp (by rw [← hidf p]; exact hpid')

lemma handlePointerUp_facts (tol : ℚ) (s : GState) (hinv : GInv s) :
    GInv (handlePointerUp tol s) ∧
    (handlePointerUp tol s).pieces.length = s.pieces.length ∧
    (∀ i (h : i < s.pieces.length)
        (h' : i < (handlePointerUp tol s).pieces.length),
      (s.pieces.get ⟨i, h⟩).isLocked = true →
      (handlePointerUp tol s).pieces.get ⟨i, h'⟩ = s.pieces.get ⟨i, h⟩) := by
  obtain ⟨hnd, hlockpos, hdragun⟩ := hinv
  unfold handlePointerUp
  rcases hdrag : s.draggedPieceId with _ | did
  · try rw [hdrag]
    exact ⟨⟨hnd, hlockpos, hdragun⟩, rfl, fun i h h' _ => rfl⟩
  · try rw [hdrag]
    dsimp only
    rcases hfind : s.pieces.find? (fun p => p.id == did) with _ | q
    · try rw [hfind]
      refine ⟨⟨hnd, hlockpos, ?_⟩, rfl, fun i h h' _ => rfl⟩
      intro did' hdid'
      simp at hdid'
    · try rw [hfind]
      dsimp only
      by_cases hD : Real.sqrt (((q.currentPos.1 - q.correctPos.1) ^ 2
          + (q.currentPos.2 - q.correctPos.2) ^ 2 : ℚ) : ℝ) < (tol : ℝ)
      · rw [if_pos hD]
        set f : PuzzlePiece → PuzzlePiece := fun p =>
          if p.id == did then
            { p with currentPos := p.correctPos, isLocked := true, zIndex := 0 }
          else p with hf
        have hidf : ∀ p, (f p).id = p.id := by
          intro p
          rw [hf]
          by_cases hb : (p.id == did) = true <;> simp [hb]
        have hlockf : ∀ p ∈ s.pieces, p.isLocked = true → f p = p := by
          intro p hp hl
          rw [hf]
          have hne : ¬(p.id == did) = true := by
            simp only [beq_iff_eq]
            intro he
            have hfalse := hdragun did hdrag p hp he
            rw [hl] at hfalse
            exact absurd hfalse (by simp)
          simp [hne]
        obtain ⟨m1, m2, m3⟩ := mapUpdate_facts s.pieces f hidf hlockf
        refine ⟨⟨?_, ?_, ?_⟩, m2, m3⟩
        · show ((s.pieces.map f).map (fun p => p.id)).Nodup
          rw [m1]
          exact hnd
        · show ∀ p' ∈ s.pieces.map f, p'.isLocked = true →
            p'.currentPos = p'.correctPos
          intro p' hp' hl'
          obtain ⟨p, hp, rfl⟩ := List.mem_map.mp hp'
          by_cases hb : (p.id == did) = true
          · have hfp : f p
                = { p with currentPos := p.correctPos, isLocked := true, zIndex := 0 } := by
              rw [hf]
              simp [hb]
            rw [hfp]
          · have hfp : f p = p := by
              rw [hf]
              simp [hb]
            rw [hfp] at hl' ⊢
            exact hlockpos p hp hl'
        · intro did' hdid'
          simp at hdid'
      · rw [if_neg hD]
        refine ⟨⟨hnd, hlockpos, ?_⟩, rfl, fun i h h' _ => rfl⟩
        intro did' hdid'
        simp at hdid'

/-- Claim C8: on release of a dragged piece, if the Euclidean distance
between its `currentPos` and its `correctPos` is within the snap tolerance
(the code's comparison is strict: `dist < SNAP_TOLERANCE`, matching the
spec's "distance threshold below which a piece auto-locks"), the piece's
`currentPos` is set exactly to `correctPos` and its lock flag is set; if
the distance exceeds the tolerance, the pieces array is left exactly as
dropped — the piece keeps its position and stays unlocked. -/
theorem release_snap_behavior (tol : ℚ) (s : GState) (did : Nat)
    (piece : PuzzlePiece)
    (hdrag : s.draggedPieceId = some did)
    (hfind : s.pieces.find? (fun p => p.id == did) = some piece) :
    (Real.sqrt (((piece.currentPos.1 - piece.correctPos.1) ^ 2
        + (piece.currentPos.2 - piece.correctPos.2) ^ 2 : ℚ) : ℝ) < (tol : ℝ) →
      (handlePointerUp tol s).pieces.length = s.pieces.length ∧
      (∀ q ∈ (handlePointerUp tol s).pieces, q.id = did →
        q.currentPos = q.correctPos ∧ q.isLocked = true)) ∧
    ((tol : ℝ) < Real.sqrt (((piece.currentPos.1 - piece.correctPos.1) ^ 2
        + (piece.currentPos.2 - piece.correctPos.2) ^ 2 : ℚ) : ℝ) →
      (handlePointerUp tol s).pieces = s.pieces ∧
      (handlePointerUp tol s).draggedPieceId = none) := by
  unfold handlePointerUp
  rw [hdrag]
  dsimp only
  rw [hfind]
  dsimp only
  constructor
  · intro hlt
    rw [if_pos hlt]
    refine ⟨by simp, ?_⟩
    intro q hq hqid
    simp only [List.mem_map] at hq
    obtain ⟨p, hp, rfl⟩ := hq
    try dsimp only at hqid ⊢
    by_cases hb : (p.id == did) = true
    · rw [if_pos hb] at hqid ⊢
      exact ⟨rfl, rfl⟩
    · rw [if_neg hb] at hqid ⊢
      exact absurd (by simp [hqid] : (p.id == did) = true) hb
  · intro hgt
    have hnlt : ¬(Real.sqrt (((piece.currentPos.1 - piece.correctPos.1) ^ 2
        + (piece.currentPos.2 - piece.correctPos.2) ^ 2 : ℚ) : ℝ) < (tol : ℝ)) :=
      not_lt.mpr (le_of_lt hgt)
    rw [if_neg hnlt]
    exact ⟨rfl, rfl⟩

/-- Claim C9: once a piece is locked it stays locked with
`currentPos = correctPos`: the game invariant (distinct ids, locked pieces
on their correct position, dragged piece unlocked) is preserved by every
pointer event; every locked piece is left entirely unchanged (all fields)
by every pointer event; and a pointer-down on a locked piece is ignored —
the whole state (pieces, z-indexes, drag selection) is unchanged. -/
theorem locked_piece_immutable (tol : ℚ) (s : GState) (e : GEvent)
    (hinv : GInv s) :
    GInv (gameStep tol s e) ∧
    (gameStep tol s e).pieces.length = s.pieces.length ∧
    (∀ i (h : i < s.pieces.length) (h' : i < (gameStep tol s e).pieces.length),
      (s.pieces.get ⟨i, h⟩).isLocked = true →
      (gameStep tol s e).pieces.get ⟨i, h'⟩ = s.pieces.get ⟨i, h⟩) ∧
    (∀ pid cx cy bl bt piece, e = GEvent.pointerDown pid cx cy bl bt →
      s.pieces.find? (fun p => p.id == pid) = some piece →
      piece.isLocked = true → gameStep tol s e = s) := by
  cases e with
  | pointerDown pid cx cy bl bt =>
    obtain ⟨g1, g2, g3, g4⟩ := handlePointerDown_facts s pid cx cy bl bt hinv
    refine ⟨g1, g2, g3, ?_⟩
    intro pid' cx' cy' bl' bt' piece he hfind hlock
    injection he with e1 e2 e3 e4 e5
    subst e1
    subst e2
    subst e3
    subst e4
    subst e5
    exact g4 piece hfind hlock
  | pointerMove cx cy bl bt =>
    obtain ⟨g1, g2, g3⟩ := handlePointerMove_facts s cx cy bl bt hinv
    exact ⟨g1, g2, g3, fun pid cx' cy' bl' bt' piece he => nomatch he⟩
  | pointerUp =>
    obtain ⟨g1, g2, g3⟩ := handlePointerUp_facts tol s hinv
    exact ⟨g1, g2, g3, fun pid cx' cy' bl' bt' piece he => nomatch he⟩

/-- Claim C10: a pointer-move or pointer-up event modifies at most the
currently dragged piece: the pieces array keeps its length, and every piece
whose id differs from the dragged piece's id (every piece, when nothing is
dragged) is entirely unchanged, all fields included. -/
theorem pointer_event_frame (tol : ℚ) (s : GState) (e : GEvent)
    (hndown : eventIsPointerDown e = false) :
    (gameStep tol s e).pieces.length = s.pieces.length ∧
    (∀ i (h : i < s.pieces.length) (h' : i < (gameStep tol s e).pieces.length),
      (∀ did, s.draggedPieceId = some did → (s.pieces.get ⟨i, h⟩).id ≠ did) →
      (gameStep tol s e).pieces.get ⟨i, h'⟩ = s.pieces.get ⟨i, h⟩) := by
  cases e with
  | pointerDown pid cx cy bl bt => simp [eventIsPointerDown] at hndown
  | pointerMove cx cy bl bt =>
    simp only [gameStep]
    unfold handlePointerMove
    rcases hdrag : s.draggedPieceId with _ | did
    · try rw [hdrag]
      exact ⟨rfl, fun i h h' _ => rfl⟩
    · try rw [hdrag]
      dsimp only
      refine ⟨by simp, ?_⟩
      intro i h h' hne
      apply get_map_untouched
      have hni : (s.pieces.get ⟨i, h⟩).id ≠ did := hne did (by simp [hdrag])
      have hbne : ¬(((s.pieces.get ⟨i, h⟩).id == did) = true) := by
        simp only [beq_iff_eq]
        exact hni
      try dsimp only
      rw [if_neg hbne]
  | pointerUp =>
    simp only [gameStep]
    unfold handlePointerUp
    rcases hdrag : s.draggedPieceId with _ | did
    · try rw [hdrag]
      exact ⟨rfl, fun i h h' _ => rfl⟩
    · try rw [hdrag]
      dsimp only
      rcases hfind : s.pieces.find? (fun p => p.id == did) with _ | q
      · try rw [hfind]
        exact ⟨rfl, fun i h h' _ => rfl⟩
      · try rw [hfind]
        dsimp only
        by_cases hD : Real.sqrt (((q.currentPos.1 - q.correctPos.1) ^ 2
            + (q.currentPos.2 - q.correctPos.2) ^ 2 : ℚ) : ℝ) < (tol : ℝ)
        · rw [if_pos hD]
          refine ⟨by simp, ?_⟩
          intro i h h' hne
          apply get_map_untouched
          have hni : (s.pieces.get ⟨i, h⟩).id ≠ did := hne did (by simp [hdrag])
          have hbne : ¬(((s.pieces.get ⟨i, h⟩).id == did) = true) := by
            simp only [beq_iff_eq]
            exact hni
          try dsimp only
          rw [if_neg hbne]
        · rw [if_neg hD]
          exact ⟨rfl, fun i h h' _ => rfl⟩

/-- An unlocked demo piece sitting at distance 3 from its correct
position. -/
def demoFreePiece : PuzzlePiece :=
  { id := 7, row := 0, col := 1, correctPos := (0, 0), currentPos := (0, 3),
    shape := ⟨0, 0, 0, 0⟩, width := 10, height := 10, isLocked := false,
    zIndex := 1 }

/-- A locked demo piece sitting exactly on its correct position. -/
def demoLockedPiece : PuzzlePiece :=
  { id := 3, row := 0, col := 0, correctPos := (5, 5), currentPos := (5, 5),
    shape := ⟨0, 0, 0, 0⟩, width := 10, height := 10, isLocked := true,
    zIndex := 0 }

/-- A demo game state holding the locked piece and no drag in progress. -/
def demoLockedState : GState := ⟨[demoLockedPiece], none, (0, 0)⟩

/-- Witness for C8: releasing the dragged demo piece at distance `3 < 5`
snaps and locks it. -/
theorem release_snap_behavior_witness :
    (GState.mk [demoFreePiece] (some 7) (0, 0)).draggedPieceId = some 7 ∧
    (GState.mk [demoFreePiece] (some 7) (0, 0)).pieces.find? (fun p => p.id == 7)
      = some demoFreePiece ∧
    Real.sqrt (((demoFreePiece.currentPos.1 - demoFreePiece.correctPos.1) ^ 2
        + (demoFreePiece.currentPos.2 - demoFreePiece.correctPos.2) ^ 2 : ℚ) : ℝ)
      < ((5 : ℚ) : ℝ) ∧
    ((handlePointerUp 5 (GState.mk [demoFreePiece] (some 7) (0, 0))).pieces.length
        = (GState.mk [demoFreePiece] (some 7) (0, 0)).pieces.length ∧
     ∀ q ∈ (handlePointerUp 5 (GState.mk [demoFreePiece] (some 7) (0, 0))).pieces,
        q.id = 7 → q.currentPos = q.correctPos ∧ q.isLocked = true) := by
  have hd : Real.sqrt (((demoFreePiece.currentPos.1 - demoFreePiece.correctPos.1) ^ 2
      + (demoFreePiece.currentPos.2 - demoFreePiece.correctPos.2) ^ 2 : ℚ) : ℝ)
      < ((5 : ℚ) : ℝ) := by
    rw [show ((demoFreePiece.currentPos.1 - demoFreePiece.correctPos.1) ^ 2
        + (demoFreePiece.currentPos.2 - demoFreePiece.correctPos.2) ^ 2 : ℚ) = 9 by
      norm_num [demoFreePiece]]
    rw [show ((9 : ℚ) : ℝ) = 3 ^ 2 by norm_num]
    rw [Real.sqrt_sq (by norm_num : (0:ℝ) ≤ 3)]
    norm_num
  exact ⟨rfl, rfl, hd,
    (release_snap_behavior 5 (GState.mk [demoFreePiece] (some 7) (0, 0)) 7
      demoFreePiece rfl rfl).1 hd⟩

/-- Witness for C9 at the demo state with one locked piece and a
pointer-up event. -/
theorem locked_piece_immutable_witness :
    GInv demoLockedState ∧
    (GInv (gameStep 5 demoLockedState GEvent.pointerUp) ∧
     (gameStep 5 demoLockedState GEvent.pointerUp).pieces.length
        = demoLockedState.pieces.length ∧
     (∀ i (h : i < demoLockedState.pieces.length)
         (h' : i < (gameStep 5 demoLockedState GEvent.pointerUp).pieces.length),
       (demoLockedState.pieces.get ⟨i, h⟩).isLocked = true →
       (gameStep 5 demoLockedState GEvent.pointerUp).pieces.get ⟨i, h'⟩
          = demoLockedState.pieces.get ⟨i, h⟩) ∧
     (∀ pid cx cy bl bt piece,
       GEvent.pointerUp = GEvent.pointerDown pid cx cy bl bt →
       demoLockedState.pieces.find? (fun p => p.id == pid) = some piece →
       piece.isLocked = true →
       gameStep 5 demoLockedState GEvent.pointerUp = demoLockedState)) := by
  have hinv : GInv demoLockedState := by
    refine ⟨by decide, ?_, ?_⟩
    · intro p hp _
      have hp' : p = demoLockedPiece := List.mem_singleton.mp hp
      rw [hp']
      rfl
    · intro did hdid
      exact absurd hdid (by simp [demoLockedState])
  exact ⟨hinv, locked_piece_immutable 5 demoLockedState GEvent.pointerUp hinv⟩

/-- Witness for C10 at the demo state with a pointer-move event. -/
theorem pointer_event_frame_witness :
    eventIsPointerDown (GEvent.pointerMove 1 2 3 4) = false ∧
    ((gameStep 5 demoLockedState (GEvent.pointerMove 1 2 3 4)).pieces.length
        = demoLockedState.pieces.length ∧
     ∀ i (h : i < demoLockedState.pieces.length)
        (h' : i < (gameStep 5 demoLockedState
            (GEvent.pointerMove 1 2 3 4)).pieces.length),
      (∀ did, demoLockedState.draggedPieceId = some did →
        (demoLockedState.pieces.get ⟨i, h⟩).id ≠ did) →
      (gameStep 5 demoLockedState (GEvent.pointerMove 1 2 3 4)).pieces.get ⟨i, h'⟩
        = demoLockedState.pieces.get ⟨i, h⟩) :=
  ⟨rfl, pointer_event_frame 5 demoLockedState (GEvent.pointerMove 1 2 3 4) rfl⟩
